import Mathlib

/-!
Verification of the Attack Rating calculator of the erdb repository.

The embedding follows the two source files:
  - src/erdb/data/wiki/scripts/ar_calculator.py  (UI layer of the wiki calculator)
  - src/erdb/main/app.py                          (CLI entry points)

Python dictionaries keyed by strings are embedded as association lists
`List (String × α)`; `dict.get(key, default)` becomes `dictGet`, a plain
`dict[key]` lookup which the source performs only on keys guaranteed to be
present becomes a total function `String → α` supplied as a parameter.
Python floats are embedded as rationals `ℚ`, `math.floor` as `Int.floor`.
The attack-power engine module (`attack_power` / `erdb.utils.attack_power`)
is imported by both source files but is not part of the excerpt; the
definitions that stand for it are modelled from the specification and say so
in their doc comments.
-/

namespace ERDB

/-- Function `dictGet d k default` embeds Python `d.get(k, default)` for a
float-valued dictionary `d`. -/
def dictGet (d : List (String × ℚ)) (k : String) (default : ℚ) : ℚ :=
  match d.find? (fun p => p.1 = k) with
  | some p => p.2
  | none => default

/-- Function `dictGetZ d k default` embeds Python `d.get(k, default)` for an
integer-valued dictionary `d`. -/
def dictGetZ (d : List (String × ℤ)) (k : String) (default : ℤ) : ℤ :=
  match d.find? (fun p => p.1 = k) with
  | some p => p.2
  | none => default

/-- Embeds `ArmamentEntry._normalize` from ar_calculator.py: a displayed integer is
rendered as "-" when it is 0 and as its decimal representation otherwise. -/
def normalize (value : ℤ) : String :=
  if value = 0 then "-" else toString value

/-- Embeds `ArmamentEntry.set_attack_power`: writes the normalized value into the
attack-power cell. -/
def setAttackPowerText (value : ℤ) : String := normalize value

/-- Embeds `ArmamentEntry.set_guard`: writes the normalized value into the guard cell. -/
def setGuardText (value : ℤ) : String := normalize value

/-- Embeds `ArmamentEntry.set_status_effect`: writes the normalized value into the
status-effect cell. -/
def setStatusEffectText (value : ℤ) : String := normalize value

/-- Embeds `ArmamentEntry.set_resistance`: writes the normalized value into the
resistance cell. -/
def setResistanceText (value : ℤ) : String := normalize value

/-- Embeds `ArmamentEntry.set_requirement`: writes the normalized armament requirement
value into the requirement cell. -/
def setRequirementText (armament_value : ℤ) : String := normalize armament_value

/-- The grade classification of `ArmamentEntry.set_scaling` from
ar_calculator.py; the `None` grade of the specification is rendered "-". -/
def grade (value : ℚ) : String :=
  if value ≥ 1.75 then "S"
  else if value ≥ 1.4 then "A"
  else if value ≥ 0.9 then "B"
  else if value ≥ 0.6 then "C"
  else if value ≥ 0.25 then "D"
  else if value > 0.0 then "E"
  else "-"

/-- The scaling value passed to `set_scaling` by
`ArmamentContainer._update_values`:
`affinity["scaling"].get(attribute, 0.) * reinforcement["scaling"][attribute]`. -/
def displayedScalingGrade (affinityScaling : List (String × ℚ))
    (reinforcementScaling : String → ℚ) (attr : String) : String :=
  grade (dictGet affinityScaling attr 0 * reinforcementScaling attr)

/-- Embeds `AttributeMenu._on_change` from ar_calculator.py: given the result of
`int(element.value)` (`none` when parsing raised `ValueError`), returns the new
field value and whether the recomputation callback fires. -/
def attributeOnChange (parsed : Option ℤ) (field : ℤ) : ℤ × Bool :=
  match parsed with
  | none => (field, false)
  | some v => (max 1 (min 99 v), true)

/-- One entry of the attack-power / status-effect breakdown: a base value, a
scaling bonus, and the resulting integer total. -/
structure DamageEntry where
  base : ℚ
  scaling : ℚ
  total : ℤ
deriving DecidableEq, Repr

/-- The five fixed damage types, in the order the specification lists them. -/
def damageTypes : List String :=
  ["physical", "magic", "fire", "lightning", "holy"]

/-- Modelled from the spec: the per-damage-type entry of
`ArmamentCalculator.attack_power` (module `attack_power` /
`erdb.utils.attack_power`, which is not part of the excerpt).
`base = variant.base_attack[type] * row(level).attack_multiplier[type]`,
`scaling = variant.scaling_rate[type] * Σ_attribute contribution`, and
`total = floor(max(0, base + scaling))`; `contribSum` stands for the
attribute-summed correction-curve contribution of the given attribute set. -/
def perTypeEntry (base_attack : String → ℚ) (attack_multiplier : String → ℚ)
    (scaling_rate : String → ℚ) (contribSum : ℚ) (t : String) : DamageEntry :=
  let base := base_attack t * attack_multiplier t
  let scaling := scaling_rate t * contribSum
  ⟨base, scaling, Int.floor (max 0 (base + scaling))⟩

/-- Modelled from the spec: `ArmamentCalculator.attack_power` returns the five
per-damage-type entries plus a synthesized aggregate keyed "total" whose
fields are the element-wise sums of the five entries (the aggregate is folded
from the already-computed entries, not recomputed from the tables). -/
def attack_power (base_attack attack_multiplier scaling_rate : String → ℚ)
    (contribSum : ℚ) : List (String × DamageEntry) :=
  let per := damageTypes.map
    (fun t => (t, perTypeEntry base_attack attack_multiplier scaling_rate contribSum t))
  let agg : DamageEntry := per.foldl
    (fun acc p => ⟨acc.base + p.2.base, acc.scaling + p.2.scaling, acc.total + p.2.total⟩)
    ⟨0, 0, 0⟩
  ("total", agg) :: per

/-- Looks a key up in the mapping returned by `attack_power`. -/
def entryFor (m : List (String × DamageEntry)) (k : String) : Option DamageEntry :=
  match m.find? (fun p => p.1 = k) with
  | some p => some p.2
  | none => none

/-- The guard-absorption value computed by `ArmamentContainer._update_values`:
`floor(affinity["guard"].get(guard_type, 0.) * reinforcement["guard"][guard_type])`. -/
def displayedGuard (affinityGuard : List (String × ℚ))
    (reinforcementGuard : String → ℚ) (t : String) : ℤ :=
  Int.floor (dictGet affinityGuard t 0 * reinforcementGuard t)

/-- The resistance value computed by `ArmamentContainer._update_values`:
`floor(affinity["resistance"].get(effect_type, 0.) * reinforcement["resistance"][effect_type])`. -/
def displayedResistance (affinityResistance : List (String × ℚ))
    (reinforcementResistance : String → ℚ) (t : String) : ℤ :=
  Int.floor (dictGet affinityResistance t 0 * reinforcementResistance t)

/-- Embeds `ArmamentEntry.set_requirement` combined with the call site in
`ArmamentContainer._update_values`: the requirement is
`armament["requirements"].get(attribute, 0)` and it is met when
`player_value >= armament_value`. -/
def requirement_met (requirements : List (String × ℤ)) (attr : String)
    (player_value : ℤ) : Bool :=
  decide (player_value ≥ dictGetZ requirements attr 0)

/-- The level options built by `ArmamentEntryFactory.create`:
`[f"+{i}" for i in range(0, len(armament["upgrade_costs"]) + 1)]`,
as a function of `len(armament["upgrade_costs"])`. -/
def levelLabels (upgradeCostsLen : ℕ) : List String :=
  (List.range (upgradeCostsLen + 1)).map (fun i => "+" ++ toString i)

/-- One affinity variant of a weapon as `ArmamentEntryFactory.create` uses it:
its name (the key of `armament["affinity"]`) and its `id` field. -/
structure AffinityVariant where
  name : String
  id : ℤ
deriving DecidableEq, Repr

/-- Python `str.startswith`, embedded over the character lists of the two
strings. -/
def startswith (s p : String) : Bool :=
  p.toList.isPrefixOf s.toList

/-- The affinity names `ArmamentEntryFactory.create` passes to
`set_affinities`: with more than one variant, the names sorted ascending by
the variants' `id` fields; otherwise the single name "Somber" or "Standard"
depending on the upgrade material. -/
def affinityOptions (affinity : List AffinityVariant)
    (upgrade_material : String) : List String :=
  if affinity.length > 1 then
    (affinity.mergeSort (fun a b => a.id ≤ b.id)).map (fun v => v.name)
  else if startswith upgrade_material ("Somber") then ["Somber"]
  else ["Standard"]

/-- Embeds `ArmamentEntry.set_affinities`: it enables the selector exactly when more than
one option is listed: `is_enabled = len(affinities) > 1`. -/
def affinitySelectorEnabled (affinities : List String) : Bool :=
  affinities.length > 1

/-- The state of `ArmamentContainer` relevant to selection bookkeeping: the
live calculators `_calcs` and the displayed entries `_elems`, both keyed by
armament key. Calculators are identified by the key they were created with
and entries by an abstract entry value. -/
structure ContainerState (Entry : Type) where
  calcs : String → Option String
  elems : String → Option Entry

/-- Embeds `ArmamentContainer.remove`: deletes the entry and the calculator of the
given key. -/
def containerRemove {Entry : Type} (s : ContainerState Entry) (k : String) :
    ContainerState Entry :=
  ⟨fun x => if x = k then none else s.calcs x,
   fun x => if x = k then none else s.elems x⟩

/-- Embeds `ArmamentContainer.add`: stores a fresh calculator for the entry's key and
the entry itself. -/
def containerAdd {Entry : Type} (s : ContainerState Entry) (k : String)
    (e : Entry) : ContainerState Entry :=
  ⟨fun x => if x = k then some k else s.calcs x,
   fun x => if x = k then some e else s.elems x⟩

/-- Embeds `ArmamentSelector.on_save`: removes every key in the old selection but not
in the temporary set, creates (via `factory.create`, here `create`) and adds
every key in the temporary set but not in the old selection, then replaces the
selection with a copy of the temporary set. The two difference sets are
iterated in some order, embedded as lists of the distinct members. -/
def onSave {Entry : Type} (selection temporary : List String)
    (s : ContainerState Entry) (create : String → Entry) :
    List String × ContainerState Entry :=
  let removedOrder := selection.filter (fun k => ¬ k ∈ temporary)
  let addedOrder := temporary.filter (fun k => ¬ k ∈ selection)
  let s1 := removedOrder.foldl containerRemove s
  let s2 := addedOrder.foldl (fun st k => containerAdd st k (create k)) s1
  (temporary, s2)

/-- The line `App.calculate_ar` prints for one damage or status type:
`f"{attack_type}: {value.base} +{value.scaling} ({value.total})"`. -/
def arLine (t : String) (e : DamageEntry) : String :=
  t ++ ": " ++ toString e.base ++ " +" ++ toString e.scaling ++
    " (" ++ toString e.total ++ ")"

/-- The sequence of lines printed by the two loops of `App.calculate_ar`, as a
function of the mappings returned by `calc.attack_power(attr)` and
`calc.status_effects(attr)`. -/
def calculateArLines (ap se : List (String × DamageEntry)) : List String :=
  ap.map (fun p => arLine p.1 p.2) ++ se.map (fun p => arLine p.1 p.2)

/-- Claim C10: every displayed integer value (attack power, guard, status
effect, resistance, requirement) is rendered "-" when it is exactly 0 and as
its decimal representation otherwise. -/
theorem displayed_value_rendering (v : ℤ) :
    (v = 0 → setAttackPowerText v = "-" ∧ setGuardText v = "-" ∧
      setStatusEffectText v = "-" ∧ setResistanceText v = "-" ∧
      setRequirementText v = "-") ∧
    (v ≠ 0 → setAttackPowerText v = toString v ∧ setGuardText v = toString v ∧
      setStatusEffectText v = toString v ∧ setResistanceText v = toString v ∧
      setRequirementText v = toString v) := by
  constructor <;> intro h <;>
    simp [setAttackPowerText, setGuardText, setStatusEffectText,
      setResistanceText, setRequirementText, normalize, h]

theorem displayed_value_rendering_witness :
    setAttackPowerText 0 = "-" ∧ setGuardText 37 = toString (37 : ℤ) :=
  ⟨((displayed_value_rendering 0).1 rfl).1,
   (((displayed_value_rendering 37).2 (by decide)).2).1⟩

/-- Claim C5: for every input event whose text parses as an integer v, the
attribute field is rewritten to max(1, min(99, v)) — a value in [1, 99] —
before the recomputation callback fires; an unparsable input changes nothing
and fires no callback. -/
theorem attribute_clamping (v field : ℤ) :
    attributeOnChange (some v) field = (max 1 (min 99 v), true) ∧
    1 ≤ (attributeOnChange (some v) field).1 ∧
    (attributeOnChange (some v) field).1 ≤ 99 ∧
    attributeOnChange none field = (field, false) := by
  refine ⟨rfl, ?_, ?_, rfl⟩ <;> simp [attributeOnChange]

/-- Claim C7: requirement_met compares the player value against the armament
requirement (an absent entry defaulting to 0) and is monotone in the player
value. -/
theorem requirement_met_spec (reqs : List (String × ℤ)) (a : String)
    (v v' : ℤ) :
    (requirement_met reqs a v = true ↔ dictGetZ reqs a 0 ≤ v) ∧
    (v ≤ v' → requirement_met reqs a v = true →
      requirement_met reqs a v' = true) ∧
    (reqs.find? (fun p => p.1 = a) = none →
      requirement_met reqs a v = decide (0 ≤ v)) := by
  refine ⟨?_, ?_, ?_⟩
  · simp [requirement_met]
  · intro hle h
    simp only [requirement_met, ge_iff_le, decide_eq_true_eq] at h ⊢
    omega
  · intro hnone
    simp [requirement_met, dictGetZ, hnone]

theorem requirement_met_spec_witness :
    requirement_met [(("strength"), 10)] ("strength") 12 = true :=
  (requirement_met_spec [(("strength"), 10)] ("strength") 10 12).2.1
    (by decide)
    ((requirement_met_spec [(("strength"), 10)] ("strength") 10 10).1.mpr
      (by decide))

/-- Claim C2: the calculate-ar command prints, for each damage type and each
status-effect type of the calculator's output, exactly one line of the form
"{type}: {base} +{scaling} ({total})" built from that type's entry. -/
theorem calculate_ar_line_format (ap se : List (String × DamageEntry)) :
    calculateArLines ap se =
      (ap ++ se).map (fun p =>
        p.1 ++ ": " ++ toString p.2.base ++ " +" ++ toString p.2.scaling ++
          " (" ++ toString p.2.total ++ ")") ∧
    (calculateArLines ap se).length = ap.length + se.length := by
  constructor
  · simp [calculateArLines, arLine]
  · simp [calculateArLines]

/-- Claim C4: guard absorption and resistance are
floor(base[type] * row_multiplier[type]) with an absent base entry treated
as 0 (and hence a 0 result). -/
theorem guard_resistance_values (affG affR : List (String × ℚ))
    (rowG rowR : String → ℚ) (t : String) (x y : String × ℚ) :
    (affG.find? (fun p => p.1 = t) = some x →
      displayedGuard affG rowG t = Int.floor (x.2 * rowG t)) ∧
    (affG.find? (fun p => p.1 = t) = none →
      displayedGuard affG rowG t = 0) ∧
    (affR.find? (fun p => p.1 = t) = some y →
      displayedResistance affR rowR t = Int.floor (y.2 * rowR t)) ∧
    (affR.find? (fun p => p.1 = t) = none →
      displayedResistance affR rowR t = 0) := by
  refine ⟨?_, ?_, ?_, ?_⟩ <;> intro h <;>
    simp [displayedGuard, displayedResistance, dictGet, h]

theorem guard_resistance_values_witness :
    displayedGuard [(("physical"), 3)] (fun _ => 2) ("physical") =
      Int.floor ((3 : ℚ) * 2) ∧
    displayedResistance [] (fun _ => 5) ("bleed") = 0 := by
  constructor
  · exact (guard_resistance_values [(("physical"), 3)] [] (fun _ => 2)
      (fun _ => 5) ("physical") (("physical"), 3) (("physical"), 3)).1 rfl
  · exact (guard_resistance_values [] [] (fun _ => 2) (fun _ => 5) ("bleed")
      (("bleed"), 0) (("bleed"), 0)).2.2.2 rfl

lemma grade_eq_S_iff (v : ℚ) : grade v = "S" ↔ 1.75 ≤ v := by
  unfold grade
  split_ifs with h1 h2 h3 h4 h5 h6 <;>
    first
      | exact iff_of_true rfl h1
      | exact iff_of_false (by decide) h1

lemma grade_eq_A_iff (v : ℚ) : grade v = "A" ↔ 1.4 ≤ v ∧ v < 1.75 := by
  unfold grade
  split_ifs with h1 h2 h3 h4 h5 h6 <;>
    first
      | exact iff_of_false (by decide) (fun h => absurd h1 (not_le.mpr h.2))
      | exact iff_of_true rfl ⟨h2, not_le.mp h1⟩
      | exact iff_of_false (by decide) (fun h => h2 h.1)

lemma grade_eq_B_iff (v : ℚ) : grade v = "B" ↔ 0.9 ≤ v ∧ v < 1.4 := by
  unfold grade
  split_ifs with h1 h2 h3 h4 h5 h6 <;>
    first
      | exact iff_of_false (by decide)
          (fun h => absurd h1 (not_le.mpr (by linarith [h.2])))
      | exact iff_of_false (by decide) (fun h => absurd h2 (not_le.mpr h.2))
      | exact iff_of_true rfl ⟨h3, not_le.mp h2⟩
      | exact iff_of_false (by decide) (fun h => h3 h.1)

lemma grade_eq_C_iff (v : ℚ) : grade v = "C" ↔ 0.6 ≤ v ∧ v < 0.9 := by
  unfold grade
  split_ifs with h1 h2 h3 h4 h5 h6 <;>
    first
      | exact iff_of_false (by decide)
          (fun h => absurd h1 (not_le.mpr (by linarith [h.2])))
      | exact iff_of_false (by decide)
          (fun h => absurd h2 (not_le.mpr (by linarith [h.2])))
      | exact iff_of_false (by decide) (fun h => absurd h3 (not_le.mpr h.2))
      | exact iff_of_true rfl ⟨h4, not_le.mp h3⟩
      | exact iff_of_false (by decide) (fun h => h4 h.1)

lemma grade_eq_D_iff (v : ℚ) : grade v = "D" ↔ 0.25 ≤ v ∧ v < 0.6 := by
  unfold grade
  split_ifs with h1 h2 h3 h4 h5 h6 <;>
    first
      | exact iff_of_false (by decide)
          (fun h => absurd h1 (not_le.mpr (by linarith [h.2])))
      | exact iff_of_false (by decide)
          (fun h => absurd h2 (not_le.mpr (by linarith [h.2])))
      | exact iff_of_false (by decide)
          (fun h => absurd h3 (not_le.mpr (by linarith [h.2])))
      | exact iff_of_false (by decide) (fun h => absurd h4 (not_le.mpr h.2))
      | exact iff_of_true rfl ⟨h5, not_le.mp h4⟩
      | exact iff_of_false (by decide) (fun h => h5 h.1)

lemma grade_eq_E_iff (v : ℚ) : grade v = "E" ↔ 0 < v ∧ v < 0.25 := by
  unfold grade
  split_ifs with h1 h2 h3 h4 h5 h6
  · exact iff_of_false (by decide)
      (fun h => absurd h1 (not_le.mpr (by linarith [h.2])))
  · exact iff_of_false (by decide)
      (fun h => absurd h2 (not_le.mpr (by linarith [h.2])))
  · exact iff_of_false (by decide)
      (fun h => absurd h3 (not_le.mpr (by linarith [h.2])))
  · exact iff_of_false (by decide)
      (fun h => absurd h4 (not_le.mpr (by linarith [h.2])))
  · exact iff_of_false (by decide) (fun h => absurd h5 (not_le.mpr h.2))
  · exact iff_of_true rfl ⟨by linarith, not_le.mp h5⟩
  · exact iff_of_false (by decide) (fun h => h6 (by linarith [h.1]))

lemma grade_eq_none_iff (v : ℚ) : grade v = "-" ↔ v ≤ 0 := by
  unfold grade
  split_ifs with h1 h2 h3 h4 h5 h6
  · exact iff_of_false (by decide)
      (fun h => absurd h1 (not_le.mpr (by linarith)))
  · exact iff_of_false (by decide)
      (fun h => absurd h2 (not_le.mpr (by linarith)))
  · exact iff_of_false (by decide)
      (fun h => absurd h3 (not_le.mpr (by linarith)))
  · exact iff_of_false (by decide)
      (fun h => absurd h4 (not_le.mpr (by linarith)))
  · exact iff_of_false (by decide)
      (fun h => absurd h5 (not_le.mpr (by linarith)))
  · exact iff_of_false (by decide)
      (fun h => absurd h6 (not_lt.mpr (by linarith)))
  · exact iff_of_true rfl (by linarith [not_lt.mp h6])

/-- Claim C3: the scaling grade is the classification of
scaling_rate[attribute] * scaling_multiplier[attribute] (missing rate
treated as 0) against the fixed thresholds ≥1.75 S, ≥1.40 A, ≥0.90 B,
≥0.60 C, ≥0.25 D, >0 E, and otherwise the None grade "-". -/
theorem scaling_grade_classification (scal : List (String × ℚ))
    (mult : String → ℚ) (a : String) (v : ℚ) :
    displayedScalingGrade scal mult a =
      grade (dictGet scal a 0 * mult a) ∧
    (grade v = "S" ↔ 1.75 ≤ v) ∧
    (grade v = "A" ↔ 1.4 ≤ v ∧ v < 1.75) ∧
    (grade v = "B" ↔ 0.9 ≤ v ∧ v < 1.4) ∧
    (grade v = "C" ↔ 0.6 ≤ v ∧ v < 0.9) ∧
    (grade v = "D" ↔ 0.25 ≤ v ∧ v < 0.6) ∧
    (grade v = "E" ↔ 0 < v ∧ v < 0.25) ∧
    (grade v = "-" ↔ v ≤ 0) :=
  ⟨rfl, grade_eq_S_iff v, grade_eq_A_iff v, grade_eq_B_iff v,
   grade_eq_C_iff v, grade_eq_D_iff v, grade_eq_E_iff v, grade_eq_none_iff v⟩

/-- Claim C6: the selectable levels are exactly the length-of-upgrade-costs
plus one options "+0" through "+max_level", where the maximum level is the
length of the upgrade-cost sequence. -/
theorem level_options (n : ℕ) :
    (levelLabels n).length = n + 1 ∧
    ∀ i (h : i < (levelLabels n).length),
      (levelLabels n).get ⟨i, h⟩ = "+" ++ toString i := by
  constructor
  · simp [levelLabels]
  · intro i h
    simp [levelLabels]

theorem level_options_witness :
    (levelLabels 2).length = 2 + 1 ∧
    (levelLabels 2).get ⟨2, by decide⟩ = "+" ++ toString 2 :=
  ⟨(level_options 2).1, (level_options 2).2 2 (by decide)⟩

/-- Claim C1: attack_power contains a synthesized aggregate "total" entry
whose base and scaling are the element-wise sums of the five per-damage-type
entries and whose total is the sum of the five per-type totals; the
aggregate is folded from the per-type entries, not independently
recomputed. -/
theorem attack_power_total_aggregate (b m r : String → ℚ) (c : ℚ) :
    entryFor (attack_power b m r c) ("total") =
      some ⟨(damageTypes.map (fun t => (perTypeEntry b m r c t).base)).sum,
            (damageTypes.map (fun t => (perTypeEntry b m r c t).scaling)).sum,
            (damageTypes.map (fun t => (perTypeEntry b m r c t).total)).sum⟩ := by
  simp only [attack_power, entryFor, damageTypes, List.map, List.foldl,
    List.find?, List.sum_cons, List.sum_nil]
  norm_num [DamageEntry.mk.injEq]
  refine ⟨by ring, by ring, by ring⟩

/-- Claim C9: with more than one affinity variant, the selector lists the
variant names sorted ascending by id and is enabled; with exactly one
variant, the selector is disabled and shows "Somber" when the upgrade
material starts with "Somber" and "Standard" otherwise. -/
theorem affinity_selector_options (affinity : List AffinityVariant)
    (mat : String) :
    (affinity.length > 1 →
      affinityOptions affinity mat =
        (affinity.mergeSort (fun a b => a.id ≤ b.id)).map (fun v => v.name) ∧
      (affinity.mergeSort (fun a b => a.id ≤ b.id)).Perm affinity ∧
      List.Pairwise (fun a b => a.id ≤ b.id)
        (affinity.mergeSort (fun a b => a.id ≤ b.id)) ∧
      affinitySelectorEnabled (affinityOptions affinity mat) = true) ∧
    (affinity.length = 1 →
      affinityOptions affinity mat =
        [if startswith mat ("Somber") then "Somber" else "Standard"] ∧
      affinitySelectorEnabled (affinityOptions affinity mat) = false) := by
  constructor
  · intro h
    have hopts : affinityOptions affinity mat =
        (affinity.mergeSort (fun a b => a.id ≤ b.id)).map (fun v => v.name) := by
      unfold affinityOptions
      rw [if_pos h]
    refine ⟨hopts, List.mergeSort_perm affinity _, ?_, ?_⟩
    · have hs := @List.sorted_mergeSort AffinityVariant
        (fun a b => decide (a.id ≤ b.id))
        (fun a b c h1 h2 => by
          simp only [decide_eq_true_eq] at h1 h2 ⊢
          omega)
        (fun a b => by
          simp only [Bool.or_eq_true, decide_eq_true_eq]
          exact Int.le_total a.id b.id)
        affinity
      exact hs.imp (fun hab => by simpa using hab)
    · rw [hopts]
      simp only [affinitySelectorEnabled, List.length_map,
        (List.mergeSort_perm affinity _).length_eq, gt_iff_lt,
        decide_eq_true_eq]
      exact h
  · intro h
    have hng : ¬ affinity.length > 1 := by omega
    constructor
    · unfold affinityOptions
      rw [if_neg hng]
      split_ifs <;> rfl
    · unfold affinityOptions affinitySelectorEnabled
      rw [if_neg hng]
      split_ifs <;> decide

unseal List.merge List.mergeSort in
theorem affinity_selector_options_witness :
    affinityOptions
        [⟨("Heavy"), 2⟩, ⟨("Standard"), 0⟩] ("Smithing Stone") =
      ["Standard", "Heavy"] ∧
    affinityOptions [⟨("Moonveil"), 5⟩] ("Somber Smithing Stone") =
      ["Somber"] ∧
    affinitySelectorEnabled
      (affinityOptions [⟨("Moonveil"), 5⟩] ("Somber Smithing Stone")) =
        false := by
  refine ⟨?_, ?_, ?_⟩
  · have h := (affinity_selector_options
      [⟨("Heavy"), 2⟩, ⟨("Standard"), 0⟩] ("Smithing Stone")).1 (by decide)
    rw [h.1]
    decide
  · have h := (affinity_selector_options
      [⟨("Moonveil"), 5⟩] ("Somber Smithing Stone")).2 (by decide)
    rw [h.1]
    decide
  · exact ((affinity_selector_options
      [⟨("Moonveil"), 5⟩] ("Somber Smithing Stone")).2 (by decide)).2

lemma foldl_containerRemove_apply {E : Type} (L : List String)
    (s : ContainerState E) (x : String) :
    (L.foldl containerRemove s).elems x =
      (if x ∈ L then none else s.elems x) ∧
    (L.foldl containerRemove s).calcs x =
      (if x ∈ L then none else s.calcs x) := by
  induction L generalizing s with
  | nil => simp
  | cons a L ih =>
    simp only [List.foldl_cons, List.mem_cons]
    rcases ih (containerRemove s a) with ⟨he, hc⟩
    rw [he, hc]
    by_cases hL : x ∈ L <;> by_cases ha : x = a <;>
      simp [containerRemove, hL, ha]

lemma foldl_containerAdd_apply {E : Type} (L : List String)
    (s : ContainerState E) (create : String → E) (x : String) :
    (L.foldl (fun st k => containerAdd st k (create k)) s).elems x =
      (if x ∈ L then some (create x) else s.elems x) ∧
    (L.foldl (fun st k => containerAdd st k (create k)) s).calcs x =
      (if x ∈ L then some x else s.calcs x) := by
  induction L generalizing s with
  | nil => simp
  | cons a L ih =>
    simp only [List.foldl_cons, List.mem_cons]
    rcases ih (containerAdd s a (create a)) with ⟨he, hc⟩
    rw [he, hc]
    by_cases hL : x ∈ L <;> by_cases ha : x = a <;>
      simp [containerAdd, hL, ha]

/-- Claim C8: after a completed on_save, the displayed entries and the live
calculators both cover exactly the saved selection set: keys only in the old
selection are removed, keys only in the saved set are created and added, and
keys in both are left untouched. -/
theorem on_save_synchronizes {E : Type} (selection temporary : List String)
    (s : ContainerState E) (create : String → E) (k : String)
    (helems : ((s.elems k).isSome = true) ↔ k ∈ selection)
    (hcalcs : ((s.calcs k).isSome = true) ↔ k ∈ selection) :
    (onSave selection temporary s create).1 = temporary ∧
    ((((onSave selection temporary s create).2.elems k).isSome = true) ↔
      k ∈ temporary) ∧
    ((((onSave selection temporary s create).2.calcs k).isSome = true) ↔
      k ∈ temporary) ∧
    (k ∈ selection → k ∈ temporary →
      (onSave selection temporary s create).2.elems k = s.elems k ∧
      (onSave selection temporary s create).2.calcs k = s.calcs k) ∧
    (k ∈ temporary → ¬ k ∈ selection →
      (onSave selection temporary s create).2.elems k = some (create k) ∧
      (onSave selection temporary s create).2.calcs k = some k) ∧
    (k ∈ selection → ¬ k ∈ temporary →
      (onSave selection temporary s create).2.elems k = none ∧
      (onSave selection temporary s create).2.calcs k = none) := by
  unfold onSave
  simp only
  rcases foldl_containerRemove_apply
    (selection.filter (fun k => ¬ k ∈ temporary)) s k with ⟨hre, hrc⟩
  rcases foldl_containerAdd_apply
    (temporary.filter (fun k => ¬ k ∈ selection))
    ((selection.filter (fun k => ¬ k ∈ temporary)).foldl containerRemove s)
    create k with ⟨hae, hac⟩
  rw [hae, hac, hre, hrc]
  by_cases hsel : k ∈ selection <;> by_cases htmp : k ∈ temporary <;>
    simp_all [List.mem_filter]

theorem on_save_synchronizes_witness :
    ((((onSave [("a")] [("b")]
        (⟨fun x => if x = ("a") then some ("a") else none,
          fun x => if x = ("a") then some ("A") else none⟩ :
            ContainerState String)
        (fun k => k)).2.elems ("b")).isSome = true)) :=
  ((on_save_synchronizes [("a")] [("b")]
      (⟨fun x => if x = ("a") then some ("a") else none,
        fun x => if x = ("a") then some ("A") else none⟩ :
          ContainerState String)
      (fun k => k) ("b") (by decide) (by decide)).2.1).mpr (by decide)

end ERDB
